import Mathlib

/-!
Shallow embedding of the DiscordOps-Monitor host resource monitor
(src/main.py) and proofs about its core behaviours: the CPU alert
watchdog (hysteresis counter + cooldown), the two-phase process
sampler with per-core normalization, the fixed-capacity CPU history
window, the termination safeguard, and the index-based terminate
command.

Modelling conventions: Python floats (CPU percentages, timestamps,
cooldowns) are embedded as rationals; psutil calls are abstracted as
explicit inputs (a reading trace for the watchdog, a process
population for the sampler, an outcome environment for the
safeguard); exceptions are embedded with `Except`.
-/

namespace Monitor

/-! ## CPU Alert Watchdog (class CPUWatchdog, src/main.py lines 116-157)

The mutable attributes of a `CPUWatchdog` instance.  `threshold` and
`cooldown` are set at construction and never written again;
`_last_alert_ts` starts at `0.0` and `_over_counter` at `0`.
The perpetual `run` loop is embedded as a step function over the
state, fed one `(now, total)` pair per cycle: `now` stands for the
value of `time.time()` during the cycle and `total` for
`psutil.cpu_percent(interval=1.0)`. -/

structure WatchdogState where
  threshold : ℚ
  cooldown : ℚ
  last_alert_ts : ℚ
  over_counter : ℕ
  deriving Repr, DecidableEq

/-- `CPUWatchdog.__init__(webhook, threshold, cooldown)`: the webhook
string is irrelevant to the state machine; `_last_alert_ts = 0.0`,
`_over_counter = 0`. -/
def CPUWatchdog.init (threshold cooldown : ℚ) : WatchdogState :=
  { threshold := threshold, cooldown := cooldown,
    last_alert_ts := 0, over_counter := 0 }

/-- The constructor defaults `threshold=90.0, cooldown=300` (also the
explicit values passed by `Bot.__init__`). -/
def CPUWatchdog.initDefault : WatchdogState := CPUWatchdog.init 90 300

/-- One iteration of the body of `CPUWatchdog.run`:

```
total = psutil.cpu_percent(interval=1.0)
if total >= self.threshold:
    self._over_counter += 1
    if self._over_counter >= 2 and (time.time() - self._last_alert_ts) > self.cooldown:
        ... send alert ...
        self._last_alert_ts = time.time()
else:
    self._over_counter = 0
```

Returns the updated state and whether the alert branch ran this
cycle. -/
def watchdogStep (st : WatchdogState) (now total : ℚ) : WatchdogState × Bool :=
  if st.threshold ≤ total then
    if 2 ≤ st.over_counter + 1 ∧ st.cooldown < now - st.last_alert_ts then
      ({ st with over_counter := st.over_counter + 1, last_alert_ts := now }, true)
    else
      ({ st with over_counter := st.over_counter + 1 }, false)
  else
    ({ st with over_counter := 0 }, false)

/-- Run the watchdog loop over a finite trace of `(now, total)` cycle
inputs; returns the final state and the timestamps of the cycles in
which an alert fired, in order. -/
def watchdogRun : WatchdogState → List (ℚ × ℚ) → WatchdogState × List ℚ
  | st, [] => (st, [])
  | st, (now, total) :: rest =>
    ((watchdogRun (watchdogStep st now total).1 rest).1,
      if (watchdogStep st now total).2 then
        now :: (watchdogRun (watchdogStep st now total).1 rest).2
      else
        (watchdogRun (watchdogStep st now total).1 rest).2)

/-- The fired-this-cycle flag of each cycle of a trace, in order. -/
def watchdogFlags : WatchdogState → List (ℚ × ℚ) → List Bool
  | _, [] => []
  | st, (now, total) :: rest =>
    (watchdogStep st now total).2 ::
      watchdogFlags (watchdogStep st now total).1 rest

/-- The value of `_over_counter` after each cycle of a trace, in
order. -/
def counterTrace : WatchdogState → List (ℚ × ℚ) → List ℕ
  | _, [] => []
  | st, (now, total) :: rest =>
    (watchdogStep st now total).1.over_counter ::
      counterTrace (watchdogStep st now total).1 rest

theorem watchdogRun_nil (st : WatchdogState) : watchdogRun st [] = (st, []) := rfl

theorem watchdogRun_cons (st : WatchdogState) (now total : ℚ)
    (rest : List (ℚ × ℚ)) :
    watchdogRun st ((now, total) :: rest) =
      ((watchdogRun (watchdogStep st now total).1 rest).1,
        if (watchdogStep st now total).2 then
          now :: (watchdogRun (watchdogStep st now total).1 rest).2
        else
          (watchdogRun (watchdogStep st now total).1 rest).2) := rfl

theorem watchdogFlags_cons (st : WatchdogState) (now total : ℚ)
    (rest : List (ℚ × ℚ)) :
    watchdogFlags st ((now, total) :: rest) =
      (watchdogStep st now total).2 ::
        watchdogFlags (watchdogStep st now total).1 rest := rfl

theorem watchdogStep_threshold (st : WatchdogState) (now total : ℚ) :
    (watchdogStep st now total).1.threshold = st.threshold := by
  unfold watchdogStep
  split_ifs <;> rfl

theorem watchdogStep_cooldown (st : WatchdogState) (now total : ℚ) :
    (watchdogStep st now total).1.cooldown = st.cooldown := by
  unfold watchdogStep
  split_ifs <;> rfl

/-- The alert branch runs exactly when the reading is over threshold,
the (incremented) counter is ≥ 2 and the elapsed time strictly
exceeds the cooldown. -/
theorem watchdogStep_fire_iff (st : WatchdogState) (now total : ℚ) :
    (watchdogStep st now total).2 = true ↔
      st.threshold ≤ total ∧ 2 ≤ st.over_counter + 1 ∧
        st.cooldown < now - st.last_alert_ts := by
  unfold watchdogStep
  split_ifs with h hc
  · simp [h, hc.1, hc.2]
  · constructor
    · intro hfalse; simp at hfalse
    · intro hand; exact absurd ⟨hand.2.1, hand.2.2⟩ hc
  · constructor
    · intro hfalse; simp at hfalse
    · intro hand; exact absurd hand.1 h

theorem watchdogStep_fire_last (st : WatchdogState) (now total : ℚ)
    (h : (watchdogStep st now total).2 = true) :
    (watchdogStep st now total).1.last_alert_ts = now := by
  unfold watchdogStep at h ⊢
  split_ifs at h ⊢
  all_goals simp_all

theorem watchdogStep_nofire_last (st : WatchdogState) (now total : ℚ)
    (h : (watchdogStep st now total).2 = false) :
    (watchdogStep st now total).1.last_alert_ts = st.last_alert_ts := by
  unfold watchdogStep at h ⊢
  split_ifs at h ⊢
  all_goals simp_all

/-- An over-threshold reading increments `_over_counter` by one, in
the firing branch and the non-firing branch alike. -/
theorem watchdogStep_counter_over (st : WatchdogState) (now total : ℚ)
    (h : st.threshold ≤ total) :
    (watchdogStep st now total).1.over_counter = st.over_counter + 1 := by
  unfold watchdogStep
  split_ifs with h1
  · rfl
  · rfl

/-- A sub-threshold reading resets `_over_counter` to zero. -/
theorem watchdogStep_counter_under (st : WatchdogState) (now total : ℚ)
    (h : total < st.threshold) :
    (watchdogStep st now total).1.over_counter = 0 := by
  unfold watchdogStep
  split_ifs with h1 h2
  · exact absurd h1 (not_le.mpr h)
  · exact absurd h1 (not_le.mpr h)
  · rfl

/-- The fire times of a run, prefixed by the initial `last_alert_ts`,
form a chain with consecutive gaps strictly larger than the cooldown. -/
theorem watchdogRun_gaps (st : WatchdogState) (trace : List (ℚ × ℚ)) :
    List.Chain' (fun a b => st.cooldown < b - a)
      (st.last_alert_ts :: (watchdogRun st trace).2) := by
  induction trace generalizing st with
  | nil => simp [watchdogRun]
  | cons p rest ih =>
    obtain ⟨now, total⟩ := p
    show List.Chain' _ (st.last_alert_ts ::
      (if (watchdogStep st now total).2 then
          now :: (watchdogRun (watchdogStep st now total).1 rest).2
        else (watchdogRun (watchdogStep st now total).1 rest).2))
    by_cases hf : (watchdogStep st now total).2 = true
    · rw [if_pos hf]
      have hchain := ih (watchdogStep st now total).1
      rw [watchdogStep_cooldown, watchdogStep_fire_last st now total hf] at hchain
      have hgap : st.cooldown < now - st.last_alert_ts :=
        ((watchdogStep_fire_iff st now total).mp hf).2.2
      exact List.Chain'.cons hgap hchain
    · rw [if_neg hf]
      have hchain := ih (watchdogStep st now total).1
      rw [watchdogStep_cooldown,
        watchdogStep_nofire_last st now total (by simpa using hf)] at hchain
      exact hchain

theorem watchdogRun_append (st : WatchdogState) (l1 l2 : List (ℚ × ℚ)) :
    watchdogRun st (l1 ++ l2) =
      ((watchdogRun (watchdogRun st l1).1 l2).1,
        (watchdogRun st l1).2 ++ (watchdogRun (watchdogRun st l1).1 l2).2) := by
  induction l1 generalizing st with
  | nil => simp [watchdogRun_nil]
  | cons p rest ih =>
    obtain ⟨now, total⟩ := p
    rw [List.cons_append, watchdogRun_cons, watchdogRun_cons, ih]
    by_cases hf : (watchdogStep st now total).2 = true
    · simp [hf]
    · simp [hf]

/-- A prefix of sub-threshold readings leaves a freshly constructed
watchdog in its initial state and fires nothing. -/
theorem watchdogRun_under_prefix (th cd : ℚ) (pre : List (ℚ × ℚ))
    (hpre : ∀ p ∈ pre, p.2 < th) :
    watchdogRun (CPUWatchdog.init th cd) pre = (CPUWatchdog.init th cd, []) := by
  induction pre with
  | nil => rfl
  | cons p rest ih =>
    obtain ⟨now, total⟩ := p
    have hlt : total < th := hpre (now, total) (List.mem_cons_self _ _)
    have hstep : watchdogStep (CPUWatchdog.init th cd) now total =
        (CPUWatchdog.init th cd, false) := by
      unfold watchdogStep CPUWatchdog.init
      rw [if_neg (not_le.mpr hlt)]
    rw [watchdogRun_cons, hstep,
      ih (fun q hq => hpre q (List.mem_cons_of_mem _ hq))]
    simp

/-- C1: for every execution of the watchdog loop, an alert is
delivered only in a cycle where the consecutive-over-threshold
counter (after its increment) is at least 2 and the elapsed time
since the last fired alert strictly exceeds the cooldown; the default
cooldown is 300 s; and along any run the timestamps of successive
fired alerts (starting from the initial `_last_alert_ts`) are more
than one cooldown apart, so under continuous breach alerts fire at
most once per cooldown window. -/
theorem watchdog_alert_gating :
    (∀ st : WatchdogState, ∀ now total : ℚ,
        (watchdogStep st now total).2 = true →
          2 ≤ (watchdogStep st now total).1.over_counter ∧
            st.cooldown < now - st.last_alert_ts) ∧
    CPUWatchdog.initDefault.cooldown = 300 ∧
    (∀ st : WatchdogState, ∀ trace : List (ℚ × ℚ),
        List.Chain' (fun a b => st.cooldown < b - a)
          (st.last_alert_ts :: (watchdogRun st trace).2)) := by
  refine ⟨fun st now total h => ?_, rfl, watchdogRun_gaps⟩
  obtain ⟨hth, hc, hcd⟩ := (watchdogStep_fire_iff st now total).mp h
  exact ⟨by rw [watchdogStep_counter_over st now total hth]; exact hc, hcd⟩

theorem watchdog_alert_gating_witness :
    2 ≤ (watchdogStep ⟨90, 300, 0, 1⟩ 400 95).1.over_counter ∧
      (⟨90, 300, 0, 1⟩ : WatchdogState).cooldown <
        400 - (⟨90, 300, 0, 1⟩ : WatchdogState).last_alert_ts :=
  watchdog_alert_gating.1 ⟨90, 300, 0, 1⟩ 400 95 (by norm_num [watchdogStep])

/-- C2: in every watchdog cycle a total-CPU reading at or above the
threshold increments the hysteresis counter, a reading strictly
below it resets the counter to exactly 0, firing does not reset the
counter, and for readings `[95, 95, 50, 95, 95]` against threshold
90 the counter trace is `[1, 2, 0, 1, 2]`. -/
theorem watchdog_counter_semantics :
    (∀ st : WatchdogState, ∀ now total : ℚ, st.threshold ≤ total →
        (watchdogStep st now total).1.over_counter = st.over_counter + 1) ∧
    (∀ st : WatchdogState, ∀ now total : ℚ, total < st.threshold →
        (watchdogStep st now total).1.over_counter = 0) ∧
    (∀ st : WatchdogState, ∀ now total : ℚ,
        (watchdogStep st now total).2 = true →
          (watchdogStep st now total).1.over_counter = st.over_counter + 1) ∧
    counterTrace (CPUWatchdog.init 90 300)
      [(0, 95), (5, 95), (10, 50), (15, 95), (20, 95)] = [1, 2, 0, 1, 2] := by
  refine ⟨watchdogStep_counter_over, watchdogStep_counter_under,
    fun st now total h => ?_, by norm_num [counterTrace, watchdogStep, CPUWatchdog.init]⟩
  exact watchdogStep_counter_over st now total
    ((watchdogStep_fire_iff st now total).mp h).1

theorem watchdog_counter_semantics_witness :
    (watchdogStep ⟨90, 300, 17, 5⟩ 20 95).1.over_counter = 5 + 1 ∧
      (watchdogStep ⟨90, 300, 17, 5⟩ 20 50).1.over_counter = 0 :=
  ⟨watchdog_counter_semantics.1 ⟨90, 300, 17, 5⟩ 20 95 (by norm_num),
    watchdog_counter_semantics.2.1 ⟨90, 300, 17, 5⟩ 20 50 (by norm_num)⟩

/-- The C3 scenario trace: readings `[92, 93, 91, 89, 96, 97]` at a
fixed 5-second cadence starting at wall-clock time `t0`. -/
def c3Trace (t0 : ℚ) : List (ℚ × ℚ) :=
  [(t0, 92), (t0 + 5, 93), (t0 + 10, 91), (t0 + 15, 89),
    (t0 + 20, 96), (t0 + 25, 97)]

/-- C3 counterexample: running the scenario (threshold 90,
cooldown 60) from wall-clock start 100 — a start more than one
cooldown after the epoch that initializes `_last_alert_ts` — the
third cycle does not fire: the single alert is NOT triggered at the
third consecutive over-threshold reading, contradicting the claim at
this explicit input. -/
theorem c3_no_alert_at_third_reading :
    (watchdogFlags (CPUWatchdog.init 90 60) (c3Trace 100)).getD 2 false = false := by
  norm_num [watchdogFlags, watchdogStep, CPUWatchdog.init, c3Trace]

/-- C3 (amended): with threshold 90, cooldown 60 and any start time
more than one cooldown after the epoch initializing
`_last_alert_ts`, the reading sequence `[92, 93, 91, 89, 96, 97]` at
fixed cadence fires exactly one alert, triggered at the SECOND
consecutive over-threshold reading (the 93), and no alert fires for
the later 96/97 pair, which falls within the cooldown of the first
alert. -/
theorem c3_exactly_one_alert_at_second_reading (t0 : ℚ) (h : 60 < t0) :
    watchdogFlags (CPUWatchdog.init 90 60) (c3Trace t0) =
      [false, true, false, false, false, false] := by
  have s1 : watchdogStep (CPUWatchdog.init 90 60) t0 92 =
      (⟨90, 60, 0, 1⟩, false) := by
    unfold watchdogStep CPUWatchdog.init
    rw [if_pos (by norm_num), if_neg (by norm_num)]
  have s2 : watchdogStep ⟨90, 60, 0, 1⟩ (t0 + 5) 93 =
      (⟨90, 60, t0 + 5, 2⟩, true) := by
    unfold watchdogStep
    rw [if_pos (by norm_num), if_pos ⟨by norm_num, by simp; linarith⟩]
  have s3 : watchdogStep ⟨90, 60, t0 + 5, 2⟩ (t0 + 10) 91 =
      (⟨90, 60, t0 + 5, 3⟩, false) := by
    unfold watchdogStep
    rw [if_pos (by norm_num), if_neg (by rintro ⟨-, hlt⟩; simp at hlt; linarith)]
  have s4 : watchdogStep ⟨90, 60, t0 + 5, 3⟩ (t0 + 15) 89 =
      (⟨90, 60, t0 + 5, 0⟩, false) := by
    unfold watchdogStep
    rw [if_neg (by norm_num)]
  have s5 : watchdogStep ⟨90, 60, t0 + 5, 0⟩ (t0 + 20) 96 =
      (⟨90, 60, t0 + 5, 1⟩, false) := by
    unfold watchdogStep
    rw [if_pos (by norm_num), if_neg (by norm_num)]
  have s6 : watchdogStep ⟨90, 60, t0 + 5, 1⟩ (t0 + 25) 97 =
      (⟨90, 60, t0 + 5, 2⟩, false) := by
    unfold watchdogStep
    rw [if_pos (by norm_num), if_neg (by rintro ⟨-, hlt⟩; simp at hlt; linarith)]
  simp [c3Trace, watchdogFlags, s1, s2, s3, s4, s5, s6]

theorem c3_exactly_one_alert_witness :
    watchdogFlags (CPUWatchdog.init 90 60) (c3Trace 100) =
      [false, true, false, false, false, false] :=
  c3_exactly_one_alert_at_second_reading 100 (by norm_num)

/-- C10: because `_last_alert_ts` is initialized to 0 at
construction, the first alert after startup is not gated by the
cooldown: after any prefix of sub-threshold readings, the first two
consecutive over-threshold readings fire an alert immediately,
provided only that the wall-clock time of the second reading exceeds
the cooldown. -/
theorem watchdog_first_alert_ungated (th cd t1 t2 x1 x2 : ℚ)
    (pre : List (ℚ × ℚ)) (hpre : ∀ p ∈ pre, p.2 < th)
    (h1 : th ≤ x1) (h2 : th ≤ x2) (hcd : cd < t2) :
    (watchdogRun (CPUWatchdog.init th cd) (pre ++ [(t1, x1), (t2, x2)])).2 = [t2] := by
  rw [watchdogRun_append, watchdogRun_under_prefix th cd pre hpre]
  have s1 : watchdogStep (CPUWatchdog.init th cd) t1 x1 =
      (⟨th, cd, 0, 1⟩, false) := by
    unfold watchdogStep CPUWatchdog.init
    rw [if_pos h1, if_neg (by norm_num)]
  have s2 : watchdogStep ⟨th, cd, 0, 1⟩ t2 x2 = (⟨th, cd, t2, 2⟩, true) := by
    unfold watchdogStep
    rw [if_pos h2, if_pos ⟨by norm_num, by simpa using hcd⟩]
  simp [watchdogRun_cons, watchdogRun_nil, s1, s2]

theorem watchdog_first_alert_ungated_witness :
    (watchdogRun (CPUWatchdog.init 90 300)
      ([(1000, 10)] ++ [(1005, 95), (1010, 96)])).2 = [1010] :=
  watchdog_first_alert_ungated 90 300 1005 1010 95 96 [(1000, 10)]
    (by intro p hp; simp at hp; rw [hp]; norm_num)
    (by norm_num) (by norm_num) (by norm_num)

/-! ## Process Sampler (snapshot_top_processes, src/main.py lines 77-106)

The OS process table is an input: each visible process carries its
pid, the `name` from `p.info` (`none` models a missing entry), the raw
`cpu_percent` delta accumulated over the sample window (which may
range up to `100 × cpu_count`), and two flags saying whether the
process survives the priming pass and the re-read pass — a `false`
flag models `psutil.NoSuchProcess`/`psutil.AccessDenied` being raised
for it in that pass, upon which the process is silently skipped. -/

structure ProcInfo where
  pid : ℕ
  name : Option String
  raw : ℚ
  primeOk : Bool
  readOk : Bool
  deriving Repr, DecidableEq

/-- One row of the returned snapshot:
`{'pid': ..., 'name': ..., 'cpu': ...}`. -/
structure Row where
  pid : ℕ
  name : String
  cpu : ℚ
  deriving Repr, DecidableEq

instance : Inhabited Row := ⟨⟨0, "", 0⟩⟩

/-- `psutil.cpu_count(logical=True) or 1`: both `None` and `0` are
falsy in Python, so either is replaced by 1. -/
def effectiveCpuCount (reported : Option ℕ) : ℕ :=
  match reported with
  | none => 1
  | some k => if k = 0 then 1 else k

/-- The row built for a process that survived both passes:
`{'pid': p.pid, 'name': (p.info.get("name") or f"pid-{p.pid}")[:64],
'cpu': max(0.0, raw / cpu_count)}`.  Python `or` replaces both `None`
and the empty string. -/
def procRow (cpu_count : ℕ) (p : ProcInfo) : Row :=
  { pid := p.pid,
    name := (match p.name with
      | none => "pid-" ++ toString p.pid
      | some s => if s = "" then "pid-" ++ toString p.pid else s).take 64,
    cpu := max 0 (p.raw / (cpu_count : ℚ)) }

/-- The comparison under `rows.sort(key=lambda r: r["cpu"], reverse=True)`:
`a` may precede `b` exactly when `b.cpu ≤ a.cpu`. -/
def rowGE (a b : Row) : Prop := b.cpu ≤ a.cpu

instance : DecidableRel rowGE := fun a b =>
  inferInstanceAs (Decidable (b.cpu ≤ a.cpu))

instance : IsTotal Row rowGE := ⟨fun a b => le_total b.cpu a.cpu⟩

instance : IsTrans Row rowGE := ⟨fun _ _ _ h1 h2 => le_trans h2 h1⟩

/-- `snapshot_top_processes(n, sample_seconds)`: prime every visible
process (silently dropping those that vanish or deny access), sleep,
re-read each survivor (again silently dropping failures), normalize
by the logical core count, sort by normalized CPU descending
(Python's sort is stable; embedded as a stable insertion sort), and
return the first `n` rows. -/
def snapshot_top_processes (reported : Option ℕ) (procs : List ProcInfo)
    (n : ℕ) : List Row :=
  ((List.insertionSort rowGE
      (((procs.filter (fun p => p.primeOk)).filter (fun p => p.readOk)).map
        (procRow (effectiveCpuCount reported))))).take n

/-- C4: for every process population and every topN, the snapshot is
sorted non-increasing by normalized CPU value and its length is at
most `min topN s` where `s` is the number of processes that survived
both sampling phases. -/
theorem snapshot_sorted_and_bounded (reported : Option ℕ)
    (procs : List ProcInfo) (n : ℕ) :
    List.Sorted rowGE (snapshot_top_processes reported procs n) ∧
      (snapshot_top_processes reported procs n).length ≤
        min n (procs.filter (fun p => p.primeOk && p.readOk)).length := by
  constructor
  · exact List.Pairwise.sublist (List.take_sublist _ _)
      (List.sorted_insertionSort rowGE _)
  · rw [snapshot_top_processes, List.length_take,
      List.length_insertionSort, List.length_map]
    have hff : (procs.filter (fun p => p.primeOk)).filter (fun p => p.readOk)
        = procs.filter (fun p => p.primeOk && p.readOk) := by
      rw [List.filter_filter]
      simp [Bool.and_comm]
    rw [hff]

/-- C5: the effective divisor defaults to 1 when the core count is
reported as `None` or `0`, and is always ≥ 1 (so the division is
never by zero); every returned row's normalized value is of the form
`max 0 (raw / cpu_count)` for some process that survived both
phases, and in particular is never negative. -/
theorem snapshot_normalization (reported : Option ℕ) (procs : List ProcInfo)
    (n : ℕ) :
    effectiveCpuCount none = 1 ∧ effectiveCpuCount (some 0) = 1 ∧
    1 ≤ effectiveCpuCount reported ∧
    (∀ row ∈ snapshot_top_processes reported procs n,
        0 ≤ row.cpu ∧ ∃ p ∈ procs, p.primeOk = true ∧ p.readOk = true ∧
          row.cpu = max 0 (p.raw / (effectiveCpuCount reported : ℚ))) := by
  refine ⟨rfl, rfl, ?_, ?_⟩
  · cases reported with
    | none => exact le_refl 1
    | some k =>
      by_cases hk : k = 0
      · simp [effectiveCpuCount, hk]
      · simp [effectiveCpuCount, hk, Nat.one_le_iff_ne_zero]
  · intro row hrow
    have hmem1 : row ∈ List.insertionSort rowGE
        (((procs.filter (fun p => p.primeOk)).filter (fun p => p.readOk)).map
          (procRow (effectiveCpuCount reported))) :=
      (List.take_sublist _ _).subset hrow
    rw [List.mem_insertionSort] at hmem1
    obtain ⟨p, hp, hrow_eq⟩ := List.mem_map.mp hmem1
    have hp2 := List.mem_filter.mp hp
    have hp3 := List.mem_filter.mp hp2.1
    refine ⟨?_, p, hp3.1, by simpa using hp3.2, by simpa using hp2.2, ?_⟩
    · rw [← hrow_eq]
      exact le_max_left 0 _
    · rw [← hrow_eq]
      simp [procRow]

theorem snapshot_normalization_witness :
    0 ≤ (procRow 4 ⟨1, some "chrome", 200, true, true⟩).cpu ∧
      ∃ p ∈ [(⟨1, some "chrome", 200, true, true⟩ : ProcInfo)],
        p.primeOk = true ∧ p.readOk = true ∧
          (procRow 4 ⟨1, some "chrome", 200, true, true⟩).cpu =
            max 0 (p.raw / (effectiveCpuCount (some 4) : ℚ)) :=
  (snapshot_normalization (some 4) [⟨1, some "chrome", 200, true, true⟩] 3).2.2.2
    (procRow 4 ⟨1, some "chrome", 200, true, true⟩)
    (by simp [snapshot_top_processes, List.insertionSort, List.orderedInsert,
      effectiveCpuCount])

/-! ## CPU history window
(`CPU_HISTORY = deque(maxlen=150)`, src/main.py line 190, mutated only
by `Bot._cpu_history_collector`, lines 305-310)

A `collections.deque` with `maxlen=150` evicts its leftmost (oldest)
element when an `append` would exceed the capacity.  The window is
embedded as a list with the oldest element first. -/

def HISTORY_CAPACITY : ℕ := 150

/-- `CPU_HISTORY.append(value)` under `maxlen=150`. -/
def historyAppend (w : List ℚ) (x : ℚ) : List ℚ :=
  if w.length + 1 ≤ HISTORY_CAPACITY then w ++ [x]
  else (w ++ [x]).drop (w.length + 1 - HISTORY_CAPACITY)

/-- The history collector appending a sequence of total-CPU readings
in order. -/
def historyRun (w : List ℚ) (xs : List ℚ) : List ℚ := xs.foldl historyAppend w

theorem historyAppend_length (w : List ℚ) (x : ℚ)
    (h : w.length ≤ HISTORY_CAPACITY) :
    (historyAppend w x).length ≤ HISTORY_CAPACITY := by
  unfold historyAppend
  split_ifs with h1
  · simpa using h1
  · simp only [List.length_drop, List.length_append, List.length_cons,
      List.length_nil]
    omega

theorem historyAppend_eq_drop (w : List ℚ) (x : ℚ)
    (_h : w.length ≤ HISTORY_CAPACITY) :
    historyAppend w x = (w ++ [x]).drop (w.length + 1 - HISTORY_CAPACITY) := by
  unfold historyAppend
  split_ifs with h1
  · rw [Nat.sub_eq_zero_of_le h1, List.drop_zero]
  · rfl

/-- After any append sequence, the window holds exactly the final
segment of capacity length of everything ever appended. -/
theorem historyRun_eq_drop (w : List ℚ) (xs : List ℚ)
    (h : w.length ≤ HISTORY_CAPACITY) :
    historyRun w xs =
      (w ++ xs).drop ((w ++ xs).length - HISTORY_CAPACITY) := by
  induction xs generalizing w with
  | nil =>
    simp only [historyRun, List.foldl_nil, List.append_nil]
    rw [Nat.sub_eq_zero_of_le h, List.drop_zero]
  | cons x xs ih =>
    have hstep : historyRun w (x :: xs) = historyRun (historyAppend w x) xs := rfl
    rw [hstep, ih (historyAppend w x) (historyAppend_length w x h),
      historyAppend_eq_drop w x h]
    by_cases h1 : w.length + 1 ≤ HISTORY_CAPACITY
    · rw [Nat.sub_eq_zero_of_le h1, List.drop_zero]
      simp only [List.append_assoc, List.singleton_append]
    · have hw : w.length = HISTORY_CAPACITY := by omega
      have hk : w.length + 1 - HISTORY_CAPACITY = 1 := by omega
      rw [hk, ← List.drop_append_of_le_length
        (by simp : 1 ≤ (w ++ [x]).length), List.drop_drop]
      simp only [List.append_assoc, List.singleton_append, List.length_drop,
        List.length_append, List.length_cons]
      have hn : 1 + (w.length + (xs.length + 1) - 1 - HISTORY_CAPACITY) =
          w.length + (xs.length + 1) - HISTORY_CAPACITY := by omega
      rw [hn]

/-- C6: the history window's length never exceeds the capacity 150
under any sequence of collector appends starting from the empty
window; after 151 appends the window is exactly the most recent 150
appended values in insertion order; and when the first of the 151
values does not recur among the other 150, it is no longer present. -/
theorem history_capacity_invariant :
    (∀ xs : List ℚ, (historyRun [] xs).length ≤ HISTORY_CAPACITY) ∧
    (∀ xs : List ℚ, xs.length = 151 → historyRun [] xs = xs.drop 1) ∧
    (∀ x : ℚ, ∀ xs : List ℚ, xs.length = 150 → x ∉ xs →
        historyRun [] (x :: xs) = xs ∧ x ∉ historyRun [] (x :: xs)) := by
  have hrun : ∀ xs : List ℚ,
      historyRun [] xs = xs.drop (xs.length - HISTORY_CAPACITY) := by
    intro xs
    have := historyRun_eq_drop [] xs (by simp [HISTORY_CAPACITY])
    simpa using this
  refine ⟨fun xs => ?_, fun xs hlen => ?_, fun x xs hlen hx => ?_⟩
  · rw [hrun, List.length_drop]
    omega
  · rw [hrun, hlen]
    norm_num [HISTORY_CAPACITY]
  · have heq : historyRun [] (x :: xs) = xs := by
      rw [hrun]
      simp [hlen, HISTORY_CAPACITY]
    exact ⟨heq, by rw [heq]; exact hx⟩

theorem history_capacity_witness :
    (List.replicate 151 (7 : ℚ)).length = 151 ∧
      historyRun [] (List.replicate 151 (7 : ℚ)) =
        (List.replicate 151 (7 : ℚ)).drop 1 :=
  ⟨List.length_replicate 151 7,
    history_capacity_invariant.2.1 _ (List.length_replicate 151 7)⟩

/-! ## Termination safeguard (safe_terminate_pid, src/main.py lines 162-185)

The psutil calls inside the `try` block are abstracted as an
environment recording the outcome (a value, or a raised exception) of
each call for the target pid; `wait` is a function of the timeout it
is called with.  Python exception propagation through the block is
embedded with `Except`; the inner `try/except psutil.TimeoutExpired`
around `p.wait` and the outer handlers are explicit matches. -/

inductive PyExn where
  | noSuchProcess
  | accessDenied
  | timeoutExpired
  | otherExn (detail : String)
  deriving Repr, DecidableEq

structure ProcEnv where
  resolve : Except PyExn Unit
  name : Except PyExn String
  terminate : Except PyExn Unit
  wait : ℚ → Except PyExn Unit
  kill : Except PyExn Unit

def SYSTEM_NAMES : List String :=
  ["System Idle Process", "System", "Registry", "MemCompression"]

def PROTECTED_PIDS : List ℤ := [0, 4]

def terminatedMsg (pid : ℤ) (nm : String) : String :=
  "Terminated **" ++ nm ++ "** (PID " ++ toString pid ++ ")."

/-- The body of the outer `try` block of `safe_terminate_pid`:
protected-pid check, `psutil.Process(pid)`, `p.name()`,
protected-name check, `p.terminate()`, `p.wait(timeout=timeout)` with
`p.kill()` on `TimeoutExpired`, then the success result.  Any
uncaught exception propagates as `.error`. -/
def terminateBody (pid : ℤ) (timeout : ℚ) (env : ProcEnv) :
    Except PyExn (Bool × String) :=
  if pid ∈ PROTECTED_PIDS then
    .ok (false, "Refusing to terminate a protected system process.")
  else
    env.resolve.bind fun _ =>
    env.name.bind fun nm =>
    if nm ∈ SYSTEM_NAMES then
      .ok (false, "Refusing to terminate critical process: " ++ nm ++ ".")
    else
      env.terminate.bind fun _ =>
      (match env.wait timeout with
        | .error .timeoutExpired => env.kill
        | o => o).bind fun _ =>
      .ok (true, terminatedMsg pid nm)

/-- `safe_terminate_pid(pid, timeout)`: the body's exceptions are
mapped by the `except` clauses to `(False, message)` results, so the
function always returns a pair and never raises.  (The repr text a
Python `{e!r}` would produce for a non-psutil exception is carried as
the `detail` string; an escaping `TimeoutExpired` falls into the
generic `except Exception` arm.) -/
def safe_terminate_pid (pid : ℤ) (timeout : ℚ) (env : ProcEnv) : Bool × String :=
  match terminateBody pid timeout env with
  | .ok r => r
  | .error .noSuchProcess => (false, "Process no longer exists.")
  | .error .accessDenied =>
      (false, "Access denied. Run the bot with sufficient privileges.")
  | .error .timeoutExpired => (false, "Unexpected error: TimeoutExpired()")
  | .error (.otherExn detail) => (false, "Unexpected error: " ++ detail)

/-- The call with the default `timeout=3.0`, as the `/terminate`
command performs it. -/
def safe_terminate_pid_default (pid : ℤ) (env : ProcEnv) : Bool × String :=
  safe_terminate_pid pid 3 env

/-- C7: the safeguard is a total function into `(ok, message)` pairs
— never an exception to its caller — and each failure mode yields
`ok = false` with its specific message: protected pid (the message
mentioning a protected system process), vanished process ("no longer
exists"), OS access denial, protected critical name (the message
naming the process), and any other OS-level error (the message
carrying the error detail). -/
theorem safe_terminate_result_contract :
    (∀ pid : ℤ, ∀ t : ℚ, ∀ env : ProcEnv, pid ∈ PROTECTED_PIDS →
        safe_terminate_pid pid t env =
          (false, "Refusing to terminate a protected system process.")) ∧
    (∀ pid : ℤ, ∀ t : ℚ, ∀ env : ProcEnv, pid ∉ PROTECTED_PIDS →
        env.resolve = .error .noSuchProcess →
        safe_terminate_pid pid t env = (false, "Process no longer exists.")) ∧
    (∀ pid : ℤ, ∀ t : ℚ, ∀ env : ProcEnv, pid ∉ PROTECTED_PIDS →
        env.resolve = .ok () → env.name = .error .accessDenied →
        safe_terminate_pid pid t env =
          (false, "Access denied. Run the bot with sufficient privileges.")) ∧
    (∀ pid : ℤ, ∀ t : ℚ, ∀ env : ProcEnv, ∀ nm : String,
        pid ∉ PROTECTED_PIDS → env.resolve = .ok () → env.name = .ok nm →
        nm ∈ SYSTEM_NAMES →
        safe_terminate_pid pid t env =
          (false, "Refusing to terminate critical process: " ++ nm ++ ".")) ∧
    (∀ pid : ℤ, ∀ t : ℚ, ∀ env : ProcEnv, ∀ s : String,
        pid ∉ PROTECTED_PIDS → env.resolve = .error (.otherExn s) →
        safe_terminate_pid pid t env =
          (false, "Unexpected error: " ++ s)) := by
  refine ⟨fun pid t env hp => ?_, fun pid t env hp hres => ?_,
    fun pid t env hp hres hname => ?_, fun pid t env nm hp hres hname hnm => ?_,
    fun pid t env s hp hres => ?_⟩
  · unfold safe_terminate_pid terminateBody
    rw [if_pos hp]
  · unfold safe_terminate_pid terminateBody
    rw [if_neg hp, hres]
    rfl
  · unfold safe_terminate_pid terminateBody
    rw [if_neg hp, hres, hname]
    rfl
  · unfold safe_terminate_pid terminateBody
    rw [if_neg hp, hres, hname]
    simp [Except.bind, hnm]
  · unfold safe_terminate_pid terminateBody
    rw [if_neg hp, hres]
    rfl

theorem safe_terminate_result_contract_witness :
    safe_terminate_pid 4 3
        ⟨.ok (), .ok "x", .ok (), fun _ => .ok (), .ok ()⟩ =
      (false, "Refusing to terminate a protected system process.") ∧
    safe_terminate_pid 1234 3
        ⟨.error .noSuchProcess, .ok "x", .ok (), fun _ => .ok (), .ok ()⟩ =
      (false, "Process no longer exists.") ∧
    safe_terminate_pid 1234 3
        ⟨.ok (), .ok "System", .ok (), fun _ => .ok (), .ok ()⟩ =
      (false, "Refusing to terminate critical process: " ++ "System" ++ ".") :=
  ⟨safe_terminate_result_contract.1 4 3 _ (by simp [PROTECTED_PIDS]),
    safe_terminate_result_contract.2.1 1234 3 _ (by simp [PROTECTED_PIDS]) rfl,
    safe_terminate_result_contract.2.2.2.1 1234 3 _ "System"
      (by simp [PROTECTED_PIDS]) rfl rfl (by simp [SYSTEM_NAMES])⟩

/-- C8: for a live, unprotected process, the safeguard first requests
graceful termination and waits with the default 3-second timeout: if
the process exits within the wait, the result is `ok = true` whatever
`kill` would have done (no escalation); if the wait times out, the
escalated `kill` is exercised — the result is `ok = true` exactly
when `kill` succeeds, and a failing `kill` surfaces as `ok = false`. -/
theorem safe_terminate_escalation :
    (∀ pid : ℤ, ∀ env : ProcEnv, ∀ nm : String, pid ∉ PROTECTED_PIDS →
        env.resolve = .ok () → env.name = .ok nm → nm ∉ SYSTEM_NAMES →
        env.terminate = .ok () → env.wait 3 = .ok () →
        safe_terminate_pid_default pid env = (true, terminatedMsg pid nm)) ∧
    (∀ pid : ℤ, ∀ env : ProcEnv, ∀ nm : String, pid ∉ PROTECTED_PIDS →
        env.resolve = .ok () → env.name = .ok nm → nm ∉ SYSTEM_NAMES →
        env.terminate = .ok () → env.wait 3 = .error .timeoutExpired →
        env.kill = .ok () →
        safe_terminate_pid_default pid env = (true, terminatedMsg pid nm)) ∧
    (∀ pid : ℤ, ∀ env : ProcEnv, ∀ nm : String, ∀ e : PyExn,
        pid ∉ PROTECTED_PIDS →
        env.resolve = .ok () → env.name = .ok nm → nm ∉ SYSTEM_NAMES →
        env.terminate = .ok () → env.wait 3 = .error .timeoutExpired →
        env.kill = .error e →
        (safe_terminate_pid_default pid env).1 = false) := by
  refine ⟨fun pid env nm hp hres hname hnm hterm hwait => ?_,
    fun pid env nm hp hres hname hnm hterm hwait hkill => ?_,
    fun pid env nm e hp hres hname hnm hterm hwait hkill => ?_⟩
  · unfold safe_terminate_pid_default safe_terminate_pid terminateBody
    rw [if_neg hp, hres, hname, hterm, hwait]
    simp [Except.bind, hnm]
  · unfold safe_terminate_pid_default safe_terminate_pid terminateBody
    rw [if_neg hp, hres, hname, hterm, hwait, hkill]
    simp [Except.bind, hnm]
  · unfold safe_terminate_pid_default safe_terminate_pid terminateBody
    rw [if_neg hp, hres, hname, hterm, hwait, hkill]
    simp only [Except.bind, if_neg hnm]
    cases e <;> rfl

theorem safe_terminate_escalation_witness :
    safe_terminate_pid_default 1234
        ⟨.ok (), .ok "hog.exe", .ok (),
          fun t => if t = 3 then .error .timeoutExpired else .ok (), .ok ()⟩ =
      (true, terminatedMsg 1234 "hog.exe") :=
  safe_terminate_escalation.2.1 1234 _ "hog.exe"
    (by simp [PROTECTED_PIDS]) rfl rfl (by simp [SYSTEM_NAMES]) rfl
    (by norm_num) rfl

/-! ## /terminate command index handling (src/main.py lines 268-303)

The command takes `index: app_commands.Range[int, 1, 10]` — the
command layer rejects any value outside 1..10 before the handler
runs.  The handler then looks up the caller's cached `/topcpu` rows
(`self._last_topcpu_by_user`), treats a missing or >600-second-old
entry as expired, rejects `index > len(rows)` as out of range, and
otherwise terminates `rows[index - 1]`. -/

inductive TerminateReply where
  | rangeRejected
  | expired
  | outOfRange (len : ℕ)
  | target (row : Row)
  deriving Repr, DecidableEq

/-- The `/terminate` index handling: `cache` is the caller's entry of
`_last_topcpu_by_user` (capture time and rows), `now` the current
time, `index` the supplied argument. -/
def terminate_command (cache : Option (ℚ × List Row)) (now : ℚ)
    (index : ℤ) : TerminateReply :=
  if index < 1 ∨ 10 < index then .rangeRejected
  else
    match cache with
    | none => .expired
    | some (capturedAt, rows) =>
      if 600 < now - capturedAt then .expired
      else if (rows.length : ℤ) < index then .outOfRange rows.length
      else .target (rows.getD (index.toNat - 1) default)

theorem terminate_command_some (capturedAt now : ℚ) (rows : List Row)
    (index : ℤ) :
    terminate_command (some (capturedAt, rows)) now index =
      (if index < 1 ∨ 10 < index then .rangeRejected
        else if 600 < now - capturedAt then .expired
        else if (rows.length : ℤ) < index then .outOfRange rows.length
        else .target (rows.getD (index.toNat - 1) default)) := rfl

/-- C9: for a stored, unexpired snapshot of length `L` (`L ≤ 10`, as
produced by `/topcpu`), an index of 0 or an index exceeding `L` is
rejected — by the Range[1,10] command-argument bound or by the
out-of-range reply — and never terminates any process; exactly the
indices `1..L` select a row, with 1-based index `i` mapped to row
`i - 1` of the ordered snapshot. -/
theorem terminate_index_contract (capturedAt now : ℚ) (rows : List Row)
    (index : ℤ) (hlen : rows.length ≤ 10) (hfresh : now - capturedAt ≤ 600) :
    ((index = 0 ∨ (rows.length : ℤ) < index) →
        ∀ r : Row,
          terminate_command (some (capturedAt, rows)) now index ≠ .target r) ∧
    (1 ≤ index → index ≤ (rows.length : ℤ) →
        terminate_command (some (capturedAt, rows)) now index =
          .target (rows.getD (index.toNat - 1) default)) := by
  constructor
  · intro hbad r
    rw [terminate_command_some]
    by_cases hrange : index < 1 ∨ 10 < index
    · rw [if_pos hrange]
      intro hcontra
      exact TerminateReply.noConfusion hcontra
    · rw [if_neg hrange]
      push_neg at hrange
      have hgt : (rows.length : ℤ) < index := by
        rcases hbad with h0 | hgt
        · omega
        · exact hgt
      rw [if_neg (by rw [not_lt]; exact hfresh), if_pos hgt]
      intro hcontra
      exact TerminateReply.noConfusion hcontra
  · intro h1 h2
    rw [terminate_command_some,
      if_neg (by push_neg; exact ⟨h1, by omega⟩),
      if_neg (by rw [not_lt]; exact hfresh), if_neg (by rw [not_lt]; exact h2)]

theorem terminate_index_contract_witness :
    (terminate_command (some (0, [⟨11, "a", 5⟩, ⟨22, "b", 3⟩])) 10 2 =
        .target (([⟨11, "a", 5⟩, ⟨22, "b", 3⟩] :
          List Row).getD ((2 : ℤ).toNat - 1) default)) ∧
      ∀ r : Row,
        terminate_command (some (0, [⟨11, "a", 5⟩, ⟨22, "b", 3⟩])) 10 3 ≠
          .target r :=
  ⟨(terminate_index_contract 0 10 [⟨11, "a", 5⟩, ⟨22, "b", 3⟩] 2
      (by norm_num) (by norm_num)).2 (by norm_num) (by norm_num),
    (terminate_index_contract 0 10 [⟨11, "a", 5⟩, ⟨22, "b", 3⟩] 3
      (by norm_num) (by norm_num)).1 (Or.inr (by norm_num))⟩

end Monitor
